import Mathlib

/-!
Verification of the series-ingestion, fitting and anomaly-detection pipeline of
`scripts/make_fig1_overlay_from_audits.py`.

The JSON records, the schema-tolerant loader (`load_series`), the duplicate
detector (`nearly_identical` and the pair check of `make_overlay`), the
power-law fitter (`ols_log10`), the tick selector (`_nice_sparse_log_ticks`)
and the per-series step of the overlay composer are embedded shallowly.
Machine floats are modelled as exact numbers: rationals in the loader and the
detector (whose arithmetic is exact there), reals in the fitter and the tick
selector (which use `log10` and `sqrt`).  JSON string scalars are not
modelled; no claim depends on them.
-/

namespace NegDrift

/-- A JSON value, as produced by `json.loads`.  String scalars are omitted:
the records the script reads hold only numbers, booleans, nulls, arrays and
objects in the positions the pipeline inspects. -/
inductive JsonVal where
  | null : JsonVal
  | bool (b : Bool) : JsonVal
  | num (q : ℚ) : JsonVal
  | arr (l : List JsonVal) : JsonVal
  | obj (kvs : List (String × JsonVal)) : JsonVal

/-- `obj[k]` / `k in obj`: first binding of key `k` in a JSON object, `none`
when the value is not an object or the key is absent. -/
def lookupKey : JsonVal → String → Option JsonVal
  | .obj kvs, k => (kvs.find? (fun kv => kv.1 == k)).map (fun kv => kv.2)
  | _, _ => none

/-- `_try_get` for one key: a present key whose value is JSON `null` counts as
absent (the source tests `obj[k] is not None`). -/
def tryGetNN (o : JsonVal) (k : String) : Option JsonVal :=
  match lookupKey o k with
  | some .null => none
  | some v => some v
  | none => none

/-- Python `float(v)` on a JSON value: numbers and booleans coerce, anything
else raises (`None`, lists, dicts).  Returns `none` for "raises". -/
def pyFloat : JsonVal → Option ℚ
  | .num q => some q
  | .bool b => some (if b then 1 else 0)
  | _ => none

/-- Truncation toward zero, the behaviour of Python `int(float)`. -/
def ratTrunc (q : ℚ) : ℤ :=
  if 0 ≤ q then ⌊q⌋ else ⌈q⌉

/-- Python `int(v)` on a JSON value: numbers truncate toward zero, booleans
coerce, anything else raises. -/
def pyInt : JsonVal → Option ℤ
  | .num q => some (ratTrunc q)
  | .bool b => some (if b then 1 else 0)
  | _ => none

/-- `_try_get(obj, "report", "series", default=[])`, keeping `none` for the
default (the default `[]` fails the list-nonempty test anyway). -/
def itemsOf (obj : JsonVal) : Option JsonVal :=
  tryGetNN obj "report" <|> tryGetNN obj "series"

/-- The dict-schema detection test of `load_series`:
`isinstance(items, list) and items and isinstance(items[0], dict) and "dt" in items[0]`.
`lookupKey first "dt"` is `some` exactly when `first` is an object holding
key `"dt"`. -/
def isDictSchema (obj : JsonVal) : Bool :=
  match itemsOf obj with
  | some (.arr (first :: _)) => (lookupKey first "dt").isSome
  | _ => false

/-- The list the dict-schema branch iterates over. -/
def dictItems (obj : JsonVal) : List JsonVal :=
  match itemsOf obj with
  | some (.arr l) => l
  | _ => []

/-- The per-item loop of the dict-schema branch.  `float(it["dt"])` and
`float(it["tail_median"])` sit inside `try/except: continue`, so a missing
key, a non-dict item or a non-numeric value skips the point.  The later
`int(it.get("runs", 0))` is outside the `try`: its failure aborts the load
(`none`). -/
def parseDictItems : List JsonVal → Option (List ℚ × List ℚ × List ℤ)
  | [] => some ([], [], [])
  | it :: rest =>
    match (lookupKey it "dt").bind pyFloat, (lookupKey it "tail_median").bind pyFloat with
    | some x, some y =>
      if 0 < x ∧ 0 < y then
        match pyInt ((lookupKey it "runs").getD (.num 0)) with
        | some r =>
          (parseDictItems rest).map (fun t => (x :: t.1, y :: t.2.1, r :: t.2.2))
        | none => none
      else parseDictItems rest
    | _, _ => parseDictItems rest

/-- The per-pair loop of the points-schema branch.  An entry that is not a
list, or has fewer than two elements, is skipped; but the `float` coercions
are *not* guarded by a `try`, so a non-numeric coordinate aborts the load. -/
def parsePointPairs : List JsonVal → Option (List ℚ × List ℚ)
  | [] => some ([], [])
  | pair :: rest =>
    match pair with
    | .arr (a :: b :: _) =>
      match pyFloat a with
      | none => none
      | some x =>
        match pyFloat b with
        | none => none
        | some y =>
          if 0 < x ∧ 0 < y then
            (parsePointPairs rest).map (fun t => (x :: t.1, y :: t.2))
          else parsePointPairs rest
    | _ => parsePointPairs rest

/-- Stable insertion of a triple into a list sorted by the first component;
a new element goes after existing elements with an equal key, matching the
stability of Python `sorted(..., key=lambda t: t[0])`. -/
def insertByX (p : ℚ × ℚ × ℤ) : List (ℚ × ℚ × ℤ) → List (ℚ × ℚ × ℤ)
  | [] => [p]
  | q :: rest => if q.1 ≤ p.1 then q :: insertByX p rest else p :: q :: rest

/-- Stable sort of (x, y, runs) triples by x ascending, modelling
`sorted(zip(xs, ys, runs), key=lambda t: t[0])`. -/
def sortByX : List (ℚ × ℚ × ℤ) → List (ℚ × ℚ × ℤ)
  | [] => []
  | p :: rest => insertByX p (sortByX rest)

/-- The normalized series a file yields: parallel x, y and run-count
sequences plus the optional declared point count. -/
structure LoadedSeries where
  xs : List ℚ
  ys : List ℚ
  runs : List ℤ
  nPts : Option ℤ
deriving DecidableEq

/-- `load_series`, minus the file I/O: from a parsed JSON record to a
normalized series.  `none` models an uncaught exception escaping the
function. -/
def load_series (obj : JsonVal) : Option LoadedSeries :=
  if isDictSchema obj then
    match parseDictItems (dictItems obj) with
    | none => none
    | some (xs, ys, rs) =>
      let z := sortByX (xs.zip (ys.zip rs))
      some ⟨z.map (fun t => t.1), z.map (fun t => t.2.1), z.map (fun t => t.2.2),
            if xs.isEmpty then none else some (xs.length : ℤ)⟩
  else
    match lookupKey obj "points" with
    | some (.arr pairs) =>
      match parsePointPairs pairs with
      | none => none
      | some (xs, ys) =>
        if xs.isEmpty then some ⟨[], [], [], none⟩
        else
          match pyInt ((lookupKey obj "n").getD (.num (xs.length : ℚ))) with
          | none => none
          | some n =>
            let z := sortByX ((xs.zip ys).map (fun p => (p.1, p.2, (0 : ℤ))))
            some ⟨z.map (fun t => t.1), z.map (fun t => t.2.1), z.map (fun t => t.2.2),
                  some n⟩
    | _ => some ⟨[], [], [], none⟩

/-- `nearly_identical(a, b, tol=1e-12)`. -/
def nearly_identical (a b : List ℚ) (tol : ℚ := 1e-12) : Bool :=
  decide (a.length = b.length) &&
    (a.zip b).all (fun p => decide (|p.1 - p.2| ≤ tol))

/-- The per-pair condition of the numeric-duplicate warning loop in
`make_overlay`: `xa and xb and nearly_identical(xa, xb) and
nearly_identical(ya, yb)`. -/
def reportsIdenticalPair (xa ya xb yb : List ℚ) : Bool :=
  !xa.isEmpty && !xb.isEmpty && nearly_identical xa xb && nearly_identical ya yb

/-- The dictionary `ols_log10` returns on success:
`{"m": m, "b": b, "lo": lo, "hi": hi, "r2": r2, "n": n}`. -/
structure FitResult where
  m : ℝ
  b : ℝ
  lo : ℝ
  hi : ℝ
  r2 : ℝ
  n : ℕ

/-- `pts = [(x, y) for x, y in zip(xs, ys) if x > 0 and y > 0]`. -/
noncomputable def retained (xs ys : List ℝ) : List (ℝ × ℝ) :=
  (xs.zip ys).filter (fun p => decide (0 < p.1 ∧ 0 < p.2))

/-- `lx = [math.log10(x) for x, _ in pts]`. -/
noncomputable def lxOf (xs ys : List ℝ) : List ℝ :=
  (retained xs ys).map (fun p => Real.logb 10 p.1)

/-- `ly = [math.log10(y) for _, y in pts]`. -/
noncomputable def lyOf (xs ys : List ℝ) : List ℝ :=
  (retained xs ys).map (fun p => Real.logb 10 p.2)

/-- `sum(l) / n`, the sample mean (`0` on the empty list since `0 / 0 = 0`,
a case the fitter never reaches). -/
noncomputable def meanL (l : List ℝ) : ℝ :=
  l.sum / l.length

/-- `sxx = sum((x - xm) ** 2 for x in lx)`: unnormalized sum of squared
deviations. -/
noncomputable def sxxL (l : List ℝ) : ℝ :=
  (l.map (fun x => (x - meanL l) ^ 2)).sum

/-- `sxy = sum((x - xm) * (y - ym) for x, y in zip(lx, ly))`. -/
noncomputable def sxyL (lx ly : List ℝ) : ℝ :=
  ((lx.zip ly).map (fun p => (p.1 - meanL lx) * (p.2 - meanL ly))).sum

/-- `m = sxy / sxx`. -/
noncomputable def slopeL (lx ly : List ℝ) : ℝ :=
  sxyL lx ly / sxxL lx

/-- `b = ym - m * xm`. -/
noncomputable def interceptL (lx ly : List ℝ) : ℝ :=
  meanL ly - slopeL lx ly * meanL lx

/-- `rss = sum((y - (m * x + b)) ** 2 for x, y in zip(lx, ly))`. -/
noncomputable def rssOfL (lx ly : List ℝ) : ℝ :=
  ((lx.zip ly).map
    (fun p => (p.2 - (slopeL lx ly * p.1 + interceptL lx ly)) ^ 2)).sum

/-- `tss = sum((y - ym) ** 2 for y in ly)`. -/
noncomputable def tssL (ly : List ℝ) : ℝ :=
  (ly.map (fun y => (y - meanL ly) ^ 2)).sum

/-- `r2 = 0.0 if tss == 0 else 1 - rss / tss`. -/
noncomputable def r2L (lx ly : List ℝ) : ℝ :=
  if tssL ly = 0 then 0 else 1 - rssOfL lx ly / tssL ly

/-- `df = n - 2` on the Python `int`s. -/
def dfOf (n : ℕ) : ℤ :=
  (n : ℤ) - 2

/-- `s2 = rss / max(1, df)` followed by `se = math.sqrt(s2 / sxx) if sxx > 0
else float("inf")`.  The fitter only evaluates this after checking
`sxx != 0`, and `sxx` is a sum of squares, so the `inf` arm is unreachable
there; it is given the junk value `0`. -/
noncomputable def seL (lx ly : List ℝ) : ℝ :=
  if 0 < sxxL lx then
    Real.sqrt ((rssOfL lx ly / ((max 1 (dfOf lx.length) : ℤ) : ℝ)) / sxxL lx)
  else 0

/-- The hard-coded two-tailed 95% critical-value table keyed by degrees of
freedom. -/
noncomputable def tcritOf (df : ℤ) : ℝ :=
  if df ≤ 0 then 1.96
  else if df = 1 then 12.706
  else if df = 2 then 4.303
  else if df ≤ 20 then 2.086
  else 1.96

/-- `ols_log10(xs, ys)`: OLS of `log10(y) ~ m * log10(x) + b` with the fixed
95% CI for `m` and `R^2`.  `None` when fewer than 3 positive points remain or
the variance of `log10(x)` is zero. -/
noncomputable def ols_log10 (xs ys : List ℝ) : Option FitResult :=
  if (retained xs ys).length < 3 then none
  else if sxxL (lxOf xs ys) = 0 then none
  else
    some
      { m := slopeL (lxOf xs ys) (lyOf xs ys)
        b := interceptL (lxOf xs ys) (lyOf xs ys)
        lo := slopeL (lxOf xs ys) (lyOf xs ys) -
          tcritOf (dfOf (lxOf xs ys).length) * seL (lxOf xs ys) (lyOf xs ys)
        hi := slopeL (lxOf xs ys) (lyOf xs ys) +
          tcritOf (dfOf (lxOf xs ys).length) * seL (lxOf xs ys) (lyOf xs ys)
        r2 := r2L (lxOf xs ys) (lyOf xs ys)
        n := (lxOf xs ys).length }

/-- `label.lower().endswith("thrash")`, computed on the character list (the
byte-level `String` API does not reduce in the kernel). -/
def labelEndsWithThrash (label : String) : Bool :=
  List.isSuffixOf "thrash".data (label.data.map Char.toLower)

/-- The jitter step of the composer loop:
`if label.lower().endswith("thrash") and thrash_jitter_pct:
   xs = [x * (1.0 + thrash_jitter_pct / 100.0) for x in xs]`. -/
noncomputable def jitteredXs (label : String) (xs : List ℝ) (jpct : ℝ) : List ℝ :=
  if labelEndsWithThrash label = true ∧ jpct ≠ 0 then
    xs.map (fun x => x * (1 + jpct / 100))
  else xs

/-- One caption line of the composer: either the fit summary
`"label: m=... [...,...] R^2=..."` (with its numeric payload) or
`"label: fit n/a"`. -/
inductive CaptionEntry where
  | fitStats (label : String) (m lo hi r2 : ℝ) : CaptionEntry
  | fitNA (label : String) : CaptionEntry

/-- What one iteration of the composer's per-series loop produces: whether
the line/markers were drawn, the fit computed for the series, and the
caption lines appended. -/
structure SeriesStep where
  drawn : Bool
  fit : Option FitResult
  caption : List CaptionEntry

/-- The per-series body of the `make_overlay` loop, after loading: apply the
optional jitter, skip empty series entirely (`if not xs: continue` — no
drawing, no fit, no caption line), else draw, fit, and append one caption
line: the fit summary when a fit exists, "label: fit n/a" otherwise. -/
noncomputable def composeStep (label : String) (xs0 ys : List ℝ) (jpct : ℝ) : SeriesStep :=
  if jitteredXs label xs0 jpct = [] then { drawn := false, fit := none, caption := [] }
  else
    match ols_log10 (jitteredXs label xs0 jpct) ys with
    | some f =>
      { drawn := true, fit := some f
        caption := [CaptionEntry.fitStats label f.m f.lo f.hi f.r2] }
    | none => { drawn := true, fit := none, caption := [CaptionEntry.fitNA label] }

/-- The candidate mantissas `np.round(np.arange(1.0, 10.0, 0.2), 1)`:
the 45 values 1.0, 1.2, ..., 9.8. -/
noncomputable def candMantissas : List ℝ :=
  [1.0, 1.2, 1.4, 1.6, 1.8, 2.0, 2.2, 2.4, 2.6, 2.8, 3.0, 3.2, 3.4, 3.6, 3.8,
   4.0, 4.2, 4.4, 4.6, 4.8, 5.0, 5.2, 5.4, 5.6, 5.8, 6.0, 6.2, 6.4, 6.6, 6.8,
   7.0, 7.2, 7.4, 7.6, 7.8, 8.0, 8.2, 8.4, 8.6, 8.8, 9.0, 9.2, 9.4, 9.6, 9.8]

/-- `np.linspace(0, last, num=num, dtype=int)`: evenly spaced indices from 0
to `last`, truncated to integers. -/
def linspaceIdx (last num : ℕ) : List ℕ :=
  (List.range num).map (fun i => if num ≤ 1 then 0 else i * last / (num - 1))

/-- `np.geomspace(a, b, num=num)`: geometric progression from `a` to `b`. -/
noncomputable def geomspace (a b : ℝ) (num : ℕ) : List ℝ :=
  (List.range num).map
    (fun (i : ℕ) => if num ≤ 1 then a else a * (b / a) ^ ((i : ℝ) / ((num : ℝ) - 1)))

/-- `_nice_sparse_log_ticks(ymin, ymax, max_labels)` over exact reals (the
float finiteness test has no counterpart here). -/
noncomputable def nice_sparse_log_ticks (ymin ymax : ℝ) (maxLabels : ℕ) : List ℝ :=
  if ymin ≤ 0 ∨ ymax ≤ 0 then []
  else
    let base : ℝ := (10 : ℝ) ^ (⌊Real.logb 10 ymin⌋ : ℤ)
    let mmin : ℝ := ymin / base
    let mmax : ℝ := ymax / base
    let picks0 : List ℝ :=
      candMantissas.filter (fun c => decide (mmin - 1e-12 ≤ c ∧ c ≤ mmax + 1e-12))
    let picks : List ℝ :=
      if picks0 = [] then geomspace (max 1 mmin) (min 9.99 mmax) maxLabels else picks0
    (linspaceIdx (picks.length - 1) (min maxLabels picks.length)).map
      (fun i => picks.getD i 0 * base)

/-! ### List-algebra helper lemmas -/

lemma sum_eq_zero_iff_of_nonneg (l : List ℝ) (h : ∀ a ∈ l, 0 ≤ a) :
    l.sum = 0 ↔ ∀ a ∈ l, a = 0 := by
  induction l with
  | nil => simp
  | cons a t ih =>
    simp only [List.mem_cons, forall_eq_or_imp] at h
    have hts : 0 ≤ t.sum := List.sum_nonneg h.2
    simp only [List.sum_cons, List.mem_cons, forall_eq_or_imp]
    constructor
    · intro h0
      have ha0 : a = 0 := le_antisymm (by linarith) h.1
      exact ⟨ha0, (ih h.2).mp (by linarith)⟩
    · rintro ⟨rfl, h2⟩
      rw [(ih h.2).mpr h2, zero_add]

lemma sum_map_affine (l : List ℝ) (a c : ℝ) :
    (l.map (fun t => a * t + c)).sum = a * l.sum + c * l.length := by
  induction l with
  | nil => simp
  | cons x t ih =>
    simp only [List.map_cons, List.sum_cons, ih, List.length_cons]
    push_cast
    ring

lemma sum_const_of_all_eq (l : List ℝ) (c : ℝ) (h : ∀ a ∈ l, a = c) :
    l.sum = c * l.length := by
  induction l with
  | nil => simp
  | cons x t ih =>
    simp only [List.mem_cons, forall_eq_or_imp] at h
    simp only [List.sum_cons, ih h.2, List.length_cons, h.1]
    push_cast
    ring

lemma meanL_map_affine (l : List ℝ) (hl : l ≠ []) (a c : ℝ) :
    meanL (l.map (fun t => a * t + c)) = a * meanL l + c := by
  have hn : (l.length : ℝ) ≠ 0 := by
    have := List.length_pos.mpr hl
    positivity
  simp only [meanL, List.length_map, sum_map_affine]
  field_simp

lemma meanL_const (l : List ℝ) (hl : l ≠ []) (c : ℝ) (h : ∀ a ∈ l, a = c) :
    meanL l = c := by
  have hn : (l.length : ℝ) ≠ 0 := by
    have := List.length_pos.mpr hl
    positivity
  rw [meanL, sum_const_of_all_eq l c h, mul_div_assoc, div_self hn, mul_one]

lemma sxxL_nonneg (l : List ℝ) : 0 ≤ sxxL l := by
  apply List.sum_nonneg
  intro x hx
  obtain ⟨a, _, rfl⟩ := List.mem_map.mp hx
  positivity

lemma sxxL_eq_zero_iff (l : List ℝ) : sxxL l = 0 ↔ ∀ a ∈ l, a = meanL l := by
  rw [sxxL, sum_eq_zero_iff_of_nonneg]
  · constructor
    · intro h a ha
      have h2 := h ((a - meanL l) ^ 2) (List.mem_map_of_mem _ ha)
      have h3 : a - meanL l = 0 := by
        exact (pow_eq_zero_iff two_ne_zero).mp h2
      linarith
    · intro h x hx
      obtain ⟨a, ha, rfl⟩ := List.mem_map.mp hx
      rw [h a ha]
      ring
  · intro x hx
    obtain ⟨a, _, rfl⟩ := List.mem_map.mp hx
    positivity

lemma tssL_eq_sxxL (l : List ℝ) : tssL l = sxxL l := rfl

lemma zip_self_eq_map {α : Type} (l : List α) : l.zip l = l.map (fun a => (a, a)) := by
  induction l with
  | nil => rfl
  | cons a t ih => simp [List.zip_cons_cons, ih]

lemma zip_with_map_self {α β : Type} (g : α → β) (l : List α) :
    l.zip (l.map g) = l.map (fun t => (t, g t)) := by
  rw [List.zip_map_right, zip_self_eq_map, List.map_map]
  apply List.map_congr_left
  intro t _
  simp [Prod.map]

lemma zip_map_left_pair {α β γ : Type} (f : α → γ) (l₁ : List α) (l₂ : List β) :
    (l₁.map f).zip l₂ = (l₁.zip l₂).map (fun p => (f p.1, p.2)) := by
  rw [List.zip_map_left]
  apply List.map_congr_left
  intro p _
  obtain ⟨u, v⟩ := p
  simp [Prod.map]

lemma sxxL_map_affine (l : List ℝ) (hl : l ≠ []) (a c : ℝ) :
    sxxL (l.map (fun t => a * t + c)) = a ^ 2 * sxxL l := by
  rw [sxxL, meanL_map_affine l hl a c, List.map_map]
  have heq : ((fun x => (x - (a * meanL l + c)) ^ 2) ∘ (fun t => a * t + c))
      = fun t => a ^ 2 * ((t - meanL l) ^ 2) := by
    funext t
    simp only [Function.comp]
    ring
  rw [heq, List.sum_map_mul_left, sxxL]

lemma sxyL_affine_right (lx : List ℝ) (hl : lx ≠ []) (a c : ℝ) :
    sxyL lx (lx.map (fun t => a * t + c)) = a * sxxL lx := by
  rw [sxyL, zip_with_map_self, List.map_map, meanL_map_affine lx hl a c]
  have heq : List.map ((fun p : ℝ × ℝ => (p.1 - meanL lx) * (p.2 - (a * meanL lx + c))) ∘
      (fun t => (t, a * t + c))) lx
      = List.map (fun t => a * ((t - meanL lx) ^ 2)) lx := by
    apply List.map_congr_left
    intro t _
    simp only [Function.comp]
    ring
  rw [heq, List.sum_map_mul_left, sxxL]

lemma interceptL_affine_right (lx : List ℝ) (hl : lx ≠ []) (hs : sxxL lx ≠ 0) (a c : ℝ) :
    slopeL lx (lx.map (fun t => a * t + c)) = a ∧
    interceptL lx (lx.map (fun t => a * t + c)) = c := by
  have hm : slopeL lx (lx.map (fun t => a * t + c)) = a := by
    rw [slopeL, sxyL_affine_right lx hl a c, mul_div_assoc, div_self hs, mul_one]
  refine ⟨hm, ?_⟩
  rw [interceptL, hm, meanL_map_affine lx hl a c]
  ring

lemma rssOfL_affine_right (lx : List ℝ) (hl : lx ≠ []) (hs : sxxL lx ≠ 0) (a c : ℝ) :
    rssOfL lx (lx.map (fun t => a * t + c)) = 0 := by
  obtain ⟨hm, hb⟩ := interceptL_affine_right lx hl hs a c
  rw [rssOfL, hm, hb, zip_with_map_self, List.map_map]
  have heq : List.map ((fun p : ℝ × ℝ => (p.2 - (a * p.1 + c)) ^ 2) ∘
      (fun t => (t, a * t + c))) lx
      = List.map (fun _ : ℝ => (0 : ℝ)) lx := by
    apply List.map_congr_left
    intro t _
    simp only [Function.comp]
    ring
  rw [heq]
  simp

/-- On data lying exactly on `ly = a * lx + c`, the fit statistics are:
slope `a`, intercept `c`, `RSS = 0`, `TSS = a ^ 2 * sxx`, `SE = 0`. -/
lemma stats_affine_right (lx : List ℝ) (hl : lx ≠ []) (hs : sxxL lx ≠ 0) (a c : ℝ) :
    slopeL lx (lx.map (fun t => a * t + c)) = a ∧
    interceptL lx (lx.map (fun t => a * t + c)) = c ∧
    rssOfL lx (lx.map (fun t => a * t + c)) = 0 ∧
    tssL (lx.map (fun t => a * t + c)) = a ^ 2 * sxxL lx ∧
    seL lx (lx.map (fun t => a * t + c)) = 0 := by
  obtain ⟨hm, hb⟩ := interceptL_affine_right lx hl hs a c
  have hrss := rssOfL_affine_right lx hl hs a c
  have htss : tssL (lx.map (fun t => a * t + c)) = a ^ 2 * sxxL lx := by
    rw [tssL_eq_sxxL, sxxL_map_affine lx hl a c]
  refine ⟨hm, hb, hrss, htss, ?_⟩
  rw [seL, hrss]
  split
  · rw [zero_div, zero_div, Real.sqrt_zero]
  · rfl

/-! ### Shift lemmas: adding a constant to `lx` (the effect of a
multiplicative x-jitter in log space) -/

lemma meanL_map_add_const (l : List ℝ) (hl : l ≠ []) (c : ℝ) :
    meanL (l.map (fun t => t + c)) = meanL l + c := by
  have h1 : (fun t : ℝ => t + c) = fun t => 1 * t + c := by
    funext t
    ring
  rw [h1, meanL_map_affine l hl 1 c, one_mul]

lemma sxxL_map_add_const (l : List ℝ) (hl : l ≠ []) (c : ℝ) :
    sxxL (l.map (fun t => t + c)) = sxxL l := by
  have h1 : (fun t : ℝ => t + c) = fun t => 1 * t + c := by
    funext t
    ring
  rw [h1, sxxL_map_affine l hl 1 c, one_pow, one_mul]

lemma sxyL_map_add_const (lx ly : List ℝ) (hl : lx ≠ []) (c : ℝ) :
    sxyL (lx.map (fun t => t + c)) ly = sxyL lx ly := by
  rw [sxyL, sxyL, zip_map_left_pair, List.map_map, meanL_map_add_const lx hl c]
  congr 1
  apply List.map_congr_left
  intro p _
  obtain ⟨u, v⟩ := p
  simp only [Function.comp]
  ring

lemma slopeL_map_add_const (lx ly : List ℝ) (hl : lx ≠ []) (c : ℝ) :
    slopeL (lx.map (fun t => t + c)) ly = slopeL lx ly := by
  rw [slopeL, slopeL, sxyL_map_add_const lx ly hl c, sxxL_map_add_const lx hl c]

lemma interceptL_map_add_const (lx ly : List ℝ) (hl : lx ≠ []) (c : ℝ) :
    interceptL (lx.map (fun t => t + c)) ly = interceptL lx ly - slopeL lx ly * c := by
  rw [interceptL, interceptL, slopeL_map_add_const lx ly hl c, meanL_map_add_const lx hl c]
  ring

lemma rssOfL_map_add_const (lx ly : List ℝ) (hl : lx ≠ []) (c : ℝ) :
    rssOfL (lx.map (fun t => t + c)) ly = rssOfL lx ly := by
  rw [rssOfL, rssOfL, slopeL_map_add_const lx ly hl c, interceptL_map_add_const lx ly hl c,
    zip_map_left_pair, List.map_map]
  congr 1
  apply List.map_congr_left
  intro p _
  obtain ⟨u, v⟩ := p
  simp only [Function.comp]
  ring

lemma r2L_map_add_const (lx ly : List ℝ) (hl : lx ≠ []) (c : ℝ) :
    r2L (lx.map (fun t => t + c)) ly = r2L lx ly := by
  rw [r2L, r2L, rssOfL_map_add_const lx ly hl c]

lemma seL_map_add_const (lx ly : List ℝ) (hl : lx ≠ []) (c : ℝ) :
    seL (lx.map (fun t => t + c)) ly = seL lx ly := by
  rw [seL, seL, rssOfL_map_add_const lx ly hl c, sxxL_map_add_const lx hl c,
    List.length_map]

/-! ### The fitter's branch structure -/

lemma retained_mem_pos {xs ys : List ℝ} {p : ℝ × ℝ} (hp : p ∈ retained xs ys) :
    0 < p.1 ∧ 0 < p.2 := by
  have h := (List.mem_filter.mp hp).2
  simpa using h

lemma ols_log10_eq_none_iff (xs ys : List ℝ) :
    ols_log10 xs ys = none ↔
      ((retained xs ys).length < 3 ∨ sxxL (lxOf xs ys) = 0) := by
  rw [ols_log10]
  split_ifs with h1 h2
  · simp [h1]
  · simp [h1, h2]
  · simp [h1, h2]

lemma sxx_zero_iff_x_const (xs ys : List ℝ) :
    sxxL (lxOf xs ys) = 0 ↔
      ∀ p ∈ retained xs ys, ∀ q ∈ retained xs ys, p.1 = q.1 := by
  rw [sxxL_eq_zero_iff]
  constructor
  · intro h p hp q hq
    have hp' := h _ (List.mem_map_of_mem (fun p => Real.logb 10 p.1) hp)
    have hq' := h _ (List.mem_map_of_mem (fun p => Real.logb 10 p.1) hq)
    have hpp : 0 < p.1 := (retained_mem_pos hp).1
    have hqp : 0 < q.1 := (retained_mem_pos hq).1
    exact Real.logb_injOn_pos (by norm_num : (1 : ℝ) < 10)
      (Set.mem_Ioi.mpr hpp) (Set.mem_Ioi.mpr hqp) (hp'.trans hq'.symm)
  · intro h a ha
    obtain ⟨p, hp, rfl⟩ := List.mem_map.mp ha
    have hall : ∀ b ∈ lxOf xs ys, b = Real.logb 10 p.1 := by
      intro b hb
      obtain ⟨q, hq, rfl⟩ := List.mem_map.mp hb
      rw [h q hq p hp]
    have hne : lxOf xs ys ≠ [] := List.ne_nil_of_mem ha
    rw [meanL_const _ hne (Real.logb 10 p.1) hall]

lemma ols_log10_eq_some (xs ys : List ℝ) (h3 : ¬ (retained xs ys).length < 3)
    (hs : ¬ sxxL (lxOf xs ys) = 0) :
    ols_log10 xs ys =
      some
        { m := slopeL (lxOf xs ys) (lyOf xs ys)
          b := interceptL (lxOf xs ys) (lyOf xs ys)
          lo := slopeL (lxOf xs ys) (lyOf xs ys) -
            tcritOf (dfOf (lxOf xs ys).length) * seL (lxOf xs ys) (lyOf xs ys)
          hi := slopeL (lxOf xs ys) (lyOf xs ys) +
            tcritOf (dfOf (lxOf xs ys).length) * seL (lxOf xs ys) (lyOf xs ys)
          r2 := r2L (lxOf xs ys) (lyOf xs ys)
          n := (lxOf xs ys).length } := by
  rw [ols_log10, if_neg h3, if_neg hs]

lemma tcritOf_pos (df : ℤ) : 0 < tcritOf df := by
  rw [tcritOf]
  split_ifs <;> norm_num

lemma seL_nonneg (lx ly : List ℝ) : 0 ≤ seL lx ly := by
  rw [seL]
  split_ifs
  · exact Real.sqrt_nonneg _
  · exact le_refl 0

/-! ### Concrete evaluations used by witnesses and counterexamples -/

lemma logb_ten_eval : Real.logb 10 10 = 1 :=
  Real.logb_self_eq_one (by norm_num)

lemma logb_hundred_eval : Real.logb 10 100 = 2 := by
  rw [show (100 : ℝ) = 10 * 10 by norm_num,
    Real.logb_mul (by norm_num) (by norm_num), logb_ten_eval]
  norm_num

lemma logb_thousand_eval : Real.logb 10 1000 = 3 := by
  rw [show (1000 : ℝ) = 10 * 100 by norm_num,
    Real.logb_mul (by norm_num) (by norm_num), logb_ten_eval, logb_hundred_eval]
  norm_num

lemma retained_eval_1 :
    retained [(1 : ℝ), 10, 100] [(1 : ℝ), 10, 100] = [(1, 1), (10, 10), (100, 100)] := by
  simp only [retained, List.zip_cons_cons, List.zip_nil_right]
  norm_num [List.filter_cons, List.filter_nil]

lemma lx_eval_1 : lxOf [(1 : ℝ), 10, 100] [(1 : ℝ), 10, 100] = [0, 1, 2] := by
  rw [lxOf, retained_eval_1]
  simp [logb_ten_eval, logb_hundred_eval]

lemma ly_eval_1 : lyOf [(1 : ℝ), 10, 100] [(1 : ℝ), 10, 100] = [0, 1, 2] := by
  rw [lyOf, retained_eval_1]
  simp [logb_ten_eval, logb_hundred_eval]

lemma sxxL_012 : sxxL [(0 : ℝ), 1, 2] = 2 := by
  norm_num [sxxL, meanL]

lemma sxxL_123 : sxxL [(1 : ℝ), 2, 3] = 2 := by
  norm_num [sxxL, meanL]

lemma ols_eval_1 :
    ols_log10 [(1 : ℝ), 10, 100] [(1 : ℝ), 10, 100] = some ⟨1, 0, 1, 1, 1, 3⟩ := by
  have h3 : ¬ (retained [(1 : ℝ), 10, 100] [(1 : ℝ), 10, 100]).length < 3 := by
    rw [retained_eval_1]
    norm_num
  have hs : ¬ sxxL (lxOf [(1 : ℝ), 10, 100] [(1 : ℝ), 10, 100]) = 0 := by
    rw [lx_eval_1, sxxL_012]
    norm_num
  have hmapid : ([(0 : ℝ), 1, 2] : List ℝ).map (fun t => 1 * t + 0) = [(0 : ℝ), 1, 2] := by
    norm_num
  have hne : ([(0 : ℝ), 1, 2] : List ℝ) ≠ [] := by simp
  have hsxx : sxxL [(0 : ℝ), 1, 2] ≠ 0 := by
    rw [sxxL_012]
    norm_num
  obtain ⟨hm, hb, hrss, htss, hse⟩ := stats_affine_right [(0 : ℝ), 1, 2] hne hsxx 1 0
  rw [hmapid] at hm hb hrss htss hse
  have hr2 : r2L [(0 : ℝ), 1, 2] [(0 : ℝ), 1, 2] = 1 := by
    rw [r2L, htss, hrss, sxxL_012]
    norm_num
  rw [ols_log10_eq_some _ _ h3 hs, lx_eval_1, ly_eval_1, hm, hb, hse, hr2]
  norm_num

lemma retained_eval_2 :
    retained [(10 : ℝ), 100, 1000] [(1 : ℝ), 10, 100] = [(10, 1), (100, 10), (1000, 100)] := by
  simp only [retained, List.zip_cons_cons, List.zip_nil_right]
  norm_num [List.filter_cons, List.filter_nil]

lemma lx_eval_2 : lxOf [(10 : ℝ), 100, 1000] [(1 : ℝ), 10, 100] = [1, 2, 3] := by
  rw [lxOf, retained_eval_2]
  simp [logb_ten_eval, logb_hundred_eval, logb_thousand_eval]

lemma ly_eval_2 : lyOf [(10 : ℝ), 100, 1000] [(1 : ℝ), 10, 100] = [0, 1, 2] := by
  rw [lyOf, retained_eval_2]
  simp [logb_ten_eval, logb_hundred_eval]

lemma ols_eval_2 :
    ols_log10 [(10 : ℝ), 100, 1000] [(1 : ℝ), 10, 100] = some ⟨1, -1, 1, 1, 1, 3⟩ := by
  have h3 : ¬ (retained [(10 : ℝ), 100, 1000] [(1 : ℝ), 10, 100]).length < 3 := by
    rw [retained_eval_2]
    norm_num
  have hs : ¬ sxxL (lxOf [(10 : ℝ), 100, 1000] [(1 : ℝ), 10, 100]) = 0 := by
    rw [lx_eval_2, sxxL_123]
    norm_num
  have hmapid : ([(1 : ℝ), 2, 3] : List ℝ).map (fun t => 1 * t + (-1)) = [(0 : ℝ), 1, 2] := by
    norm_num
  have hne : ([(1 : ℝ), 2, 3] : List ℝ) ≠ [] := by simp
  have hsxx : sxxL [(1 : ℝ), 2, 3] ≠ 0 := by
    rw [sxxL_123]
    norm_num
  obtain ⟨hm, hb, hrss, htss, hse⟩ := stats_affine_right [(1 : ℝ), 2, 3] hne hsxx 1 (-1)
  rw [hmapid] at hm hb hrss htss hse
  have hr2 : r2L [(1 : ℝ), 2, 3] [(0 : ℝ), 1, 2] = 1 := by
    rw [r2L, htss, hrss, sxxL_123]
    norm_num
  rw [ols_log10_eq_some _ _ h3 hs, lx_eval_2, ly_eval_2, hm, hb, hse, hr2]
  norm_num

lemma retained_eval_3 :
    retained [(1 : ℝ), 10, 100] [(5 : ℝ), 5, 5] = [(1, 5), (10, 5), (100, 5)] := by
  simp only [retained, List.zip_cons_cons, List.zip_nil_right]
  norm_num [List.filter_cons, List.filter_nil]

lemma lx_eval_3 : lxOf [(1 : ℝ), 10, 100] [(5 : ℝ), 5, 5] = [0, 1, 2] := by
  rw [lxOf, retained_eval_3]
  simp [logb_ten_eval, logb_hundred_eval]

lemma ly_eval_3 :
    lyOf [(1 : ℝ), 10, 100] [(5 : ℝ), 5, 5]
      = [Real.logb 10 5, Real.logb 10 5, Real.logb 10 5] := by
  rw [lyOf, retained_eval_3]
  simp

lemma ols_eval_3 :
    ols_log10 [(1 : ℝ), 10, 100] [(5 : ℝ), 5, 5]
      = some ⟨0, Real.logb 10 5, 0, 0, 0, 3⟩ := by
  have h3 : ¬ (retained [(1 : ℝ), 10, 100] [(5 : ℝ), 5, 5]).length < 3 := by
    rw [retained_eval_3]
    norm_num
  have hs : ¬ sxxL (lxOf [(1 : ℝ), 10, 100] [(5 : ℝ), 5, 5]) = 0 := by
    rw [lx_eval_3, sxxL_012]
    norm_num
  have hmapid : ([(0 : ℝ), 1, 2] : List ℝ).map (fun t => 0 * t + Real.logb 10 5)
      = [Real.logb 10 5, Real.logb 10 5, Real.logb 10 5] := by
    norm_num
  have hne : ([(0 : ℝ), 1, 2] : List ℝ) ≠ [] := by simp
  have hsxx : sxxL [(0 : ℝ), 1, 2] ≠ 0 := by
    rw [sxxL_012]
    norm_num
  obtain ⟨hm, hb, hrss, htss, hse⟩ :=
    stats_affine_right [(0 : ℝ), 1, 2] hne hsxx 0 (Real.logb 10 5)
  rw [hmapid] at hm hb hrss htss hse
  have hr2 : r2L [(0 : ℝ), 1, 2] [Real.logb 10 5, Real.logb 10 5, Real.logb 10 5] = 0 := by
    rw [r2L, htss]
    norm_num
  rw [ols_log10_eq_some _ _ h3 hs, lx_eval_3, ly_eval_3, hm, hb, hse, hr2]
  norm_num

/-! ### Claim theorems -/

/-- Claim C3: the fitter returns "unavailable" (`none`) exactly when fewer
than 3 points with positive x and y remain, or all retained x values are
identical (zero variance of log10(x)); in every other case it returns a
`FitResult`. -/
theorem fit_unavailable_iff (xs ys : List ℝ) :
    ols_log10 xs ys = none ↔
      ((retained xs ys).length < 3 ∨
        ∀ p ∈ retained xs ys, ∀ q ∈ retained xs ys, p.1 = q.1) := by
  rw [ols_log10_eq_none_iff, sxx_zero_iff_x_const]

/-- Claim C10: whenever the fitter returns a result, the confidence bounds
bracket the slope, `lo ≤ m ≤ hi`, because the critical t-value is positive
and the standard error is non-negative. -/
theorem ci_brackets_slope (xs ys : List ℝ) (r : FitResult)
    (h : ols_log10 xs ys = some r) : r.lo ≤ r.m ∧ r.m ≤ r.hi := by
  rw [ols_log10] at h
  split_ifs at h
  injection h with h
  subst h
  dsimp only
  have ht := tcritOf_pos (dfOf (lxOf xs ys).length)
  have hse := seL_nonneg (lxOf xs ys) (lyOf xs ys)
  have hprod : 0 ≤ tcritOf (dfOf (lxOf xs ys).length) * seL (lxOf xs ys) (lyOf xs ys) :=
    mul_nonneg ht.le hse
  constructor <;> linarith

/-- Witness for C10 at the series x = [1, 10, 100], y = [1, 10, 100]. -/
theorem ci_brackets_slope_w :
    (FitResult.mk 1 0 1 1 1 3).lo ≤ (FitResult.mk 1 0 1 1 1 3).m ∧
      (FitResult.mk 1 0 1 1 1 3).m ≤ (FitResult.mk 1 0 1 1 1 3).hi :=
  ci_brackets_slope [(1 : ℝ), 10, 100] [(1 : ℝ), 10, 100] ⟨1, 0, 1, 1, 1, 3⟩ ols_eval_1

/-- Claim C6: for every produced fit, the 95% confidence interval equals
slope ± t·SE with SE = sqrt((RSS / max(1, df)) / Sxx), df = n − 2, Sxx the
unnormalized sum of squared deviations of log10(x), and t taken from the
fixed table df ≤ 0 → 1.96, df = 1 → 12.706, df = 2 → 4.303, df ≤ 20 → 2.086,
else 1.96. -/
theorem ci_formula (xs ys : List ℝ) (r : FitResult)
    (h : ols_log10 xs ys = some r) :
    (r.lo = r.m - tcritOf ((r.n : ℤ) - 2) *
        Real.sqrt ((rssOfL (lxOf xs ys) (lyOf xs ys) /
          ((max 1 ((r.n : ℤ) - 2) : ℤ) : ℝ)) / sxxL (lxOf xs ys)) ∧
      r.hi = r.m + tcritOf ((r.n : ℤ) - 2) *
        Real.sqrt ((rssOfL (lxOf xs ys) (lyOf xs ys) /
          ((max 1 ((r.n : ℤ) - 2) : ℤ) : ℝ)) / sxxL (lxOf xs ys)) ∧
      (r.n : ℤ) - 2 = dfOf (retained xs ys).length ∧
      sxxL (lxOf xs ys) =
        ((lxOf xs ys).map (fun t => (t - meanL (lxOf xs ys)) ^ 2)).sum) ∧
    (∀ d : ℤ,
      (d ≤ 0 → tcritOf d = 1.96) ∧
      (d = 1 → tcritOf d = 12.706) ∧
      (d = 2 → tcritOf d = 4.303) ∧
      (2 < d → d ≤ 20 → tcritOf d = 2.086) ∧
      (20 < d → tcritOf d = 1.96)) := by
  constructor
  · rw [ols_log10] at h
    split_ifs at h with h1 h2
    injection h with h
    subst h
    dsimp only
    have hpos : 0 < sxxL (lxOf xs ys) :=
      lt_of_le_of_ne (sxxL_nonneg _) (Ne.symm h2)
    have hse : seL (lxOf xs ys) (lyOf xs ys) =
        Real.sqrt ((rssOfL (lxOf xs ys) (lyOf xs ys) /
          ((max 1 (dfOf (lxOf xs ys).length) : ℤ) : ℝ)) / sxxL (lxOf xs ys)) := by
      rw [seL, if_pos hpos]
    refine ⟨?_, ?_, ?_, rfl⟩
    · rw [hse]
      simp only [dfOf]
    · rw [hse]
      simp only [dfOf]
    · simp only [dfOf, lxOf, List.length_map]
  · intro d
    refine ⟨fun hd => ?_, fun hd => ?_, fun hd => ?_, fun hd hd' => ?_, fun hd => ?_⟩
    · rw [tcritOf, if_pos hd]
    · rw [tcritOf, if_neg (by omega), if_pos hd]
    · rw [tcritOf, if_neg (by omega), if_neg (by omega), if_pos hd]
    · rw [tcritOf, if_neg (by omega), if_neg (by omega), if_neg (by omega), if_pos hd']
    · rw [tcritOf, if_neg (by omega), if_neg (by omega), if_neg (by omega),
        if_neg (by omega)]

/-- Witness for C6 at the series x = [1, 10, 100], y = [1, 10, 100], whose
fit is slope 1, intercept 0, CI [1, 1], R² = 1, n = 3. -/
theorem ci_formula_w :
    (FitResult.mk 1 0 1 1 1 3).lo = (FitResult.mk 1 0 1 1 1 3).m -
      tcritOf (((FitResult.mk 1 0 1 1 1 3).n : ℤ) - 2) *
        Real.sqrt ((rssOfL (lxOf [(1 : ℝ), 10, 100] [(1 : ℝ), 10, 100])
            (lyOf [(1 : ℝ), 10, 100] [(1 : ℝ), 10, 100]) /
          ((max 1 (((FitResult.mk 1 0 1 1 1 3).n : ℤ) - 2) : ℤ) : ℝ)) /
          sxxL (lxOf [(1 : ℝ), 10, 100] [(1 : ℝ), 10, 100])) :=
  (ci_formula [(1 : ℝ), 10, 100] [(1 : ℝ), 10, 100] ⟨1, 0, 1, 1, 1, 3⟩ ols_eval_1).1.1

lemma mem_zip_of_mem_left {α β : Type} {x : α} {xs : List α} {ys : List β}
    (hx : x ∈ xs) (hlen : ys.length = xs.length) : ∃ y, (x, y) ∈ xs.zip ys := by
  induction xs generalizing ys with
  | nil => cases hx
  | cons a t ih =>
    cases ys with
    | nil => simp at hlen
    | cons b u =>
      rcases List.mem_cons.mp hx with rfl | hx'
      · exact ⟨b, by simp [List.zip_cons_cons]⟩
      · obtain ⟨y, hy⟩ := ih hx' (by simpa using hlen)
        exact ⟨y, by simp [List.zip_cons_cons, hy]⟩

/-- Claim C2 (amended): a series of at least 3 positive points lying exactly
on a log-log line y = C·x^a, with nonzero exponent a and at least two
distinct x values, is fitted with slope exactly a and R² exactly 1. -/
theorem exact_powerlaw_fit (xs ys : List ℝ) (Cc a : ℝ)
    (hlen3 : 3 ≤ xs.length) (hlen : ys.length = xs.length)
    (hxpos : ∀ x ∈ xs, 0 < x) (hC : 0 < Cc)
    (hline : ∀ p ∈ xs.zip ys, p.2 = Cc * p.1 ^ a)
    (ha : a ≠ 0)
    (hdist : ∃ x ∈ xs, ∃ x' ∈ xs, x ≠ x') :
    ∃ r, ols_log10 xs ys = some r ∧ r.m = a ∧ r.r2 = 1 := by
  have hzip_pos : ∀ p ∈ xs.zip ys, 0 < p.1 ∧ 0 < p.2 := by
    intro p hp
    have hx : p.1 ∈ xs := by
      obtain ⟨u, v⟩ := p
      exact (List.of_mem_zip hp).1
    have h1 : 0 < p.1 := hxpos _ hx
    refine ⟨h1, ?_⟩
    rw [hline p hp]
    exact mul_pos hC (Real.rpow_pos_of_pos h1 a)
  have hret : retained xs ys = xs.zip ys := by
    rw [retained, List.filter_eq_self]
    intro p hp
    simpa using hzip_pos p hp
  have hretlen : (retained xs ys).length = xs.length := by
    rw [hret, List.length_zip, hlen, min_self]
  have h3 : ¬ (retained xs ys).length < 3 := by omega
  have hlxlen : (lxOf xs ys).length = xs.length := by
    rw [lxOf, List.length_map, hretlen]
  have hlxne : lxOf xs ys ≠ [] := by
    intro hnil
    rw [hnil] at hlxlen
    simp only [List.length_nil] at hlxlen
    omega
  have hly : lyOf xs ys = (lxOf xs ys).map (fun t => a * t + Real.logb 10 Cc) := by
    rw [lyOf, lxOf, hret, List.map_map]
    apply List.map_congr_left
    intro p hp
    have h1 : 0 < p.1 := (hzip_pos p hp).1
    simp only [Function.comp]
    rw [hline p hp,
      Real.logb_mul (ne_of_gt hC) (ne_of_gt (Real.rpow_pos_of_pos h1 a)),
      Real.logb_rpow_eq_mul_logb_of_pos h1]
    ring
  have hsxx : sxxL (lxOf xs ys) ≠ 0 := by
    intro h0
    obtain ⟨x, hx, x', hx', hne⟩ := hdist
    obtain ⟨y, hy⟩ := mem_zip_of_mem_left hx hlen
    obtain ⟨y', hy'⟩ := mem_zip_of_mem_left hx' hlen
    have heq := (sxx_zero_iff_x_const xs ys).mp h0 (x, y) (by rw [hret]; exact hy)
      (x', y') (by rw [hret]; exact hy')
    exact hne heq
  obtain ⟨hm, hb, hrss, htss, hse⟩ :=
    stats_affine_right (lxOf xs ys) hlxne hsxx a (Real.logb 10 Cc)
  rw [← hly] at hm hb hrss htss hse
  refine ⟨_, ols_log10_eq_some xs ys h3 hsxx, ?_, ?_⟩
  · exact hm
  · have htss0 : tssL (lyOf xs ys) ≠ 0 := by
      rw [htss]
      exact mul_ne_zero (pow_ne_zero 2 ha) hsxx
    show r2L (lxOf xs ys) (lyOf xs ys) = 1
    rw [r2L, if_neg htss0, hrss, zero_div, sub_zero]

/-- Counterexample to C2 as stated: the series x = [1, 10, 100],
y = [5, 5, 5] lies exactly on the log-log line y = 5·x^0, yet the fitter
returns R² = 0 (the zero-TSS guard), not 1. -/
theorem exact_line_zero_slope_cex :
    ([(5 : ℝ), 5, 5] = [(1 : ℝ), 10, 100].map (fun x => 5 * x ^ (0 : ℝ))) ∧
    ols_log10 [(1 : ℝ), 10, 100] [(5 : ℝ), 5, 5]
      = some ⟨0, Real.logb 10 5, 0, 0, 0, 3⟩ ∧
    (FitResult.mk 0 (Real.logb 10 5) 0 0 0 3).r2 = 0 ∧ (0 : ℝ) ≠ 1 := by
  refine ⟨?_, ols_eval_3, rfl, by norm_num⟩
  norm_num [Real.rpow_zero]

/-- Witness for the amended C2 at x = [1, 10, 100], y = [1, 10, 100]
(the line y = 1·x^1). -/
theorem exact_powerlaw_fit_w :
    ols_log10 [(1 : ℝ), 10, 100] [(1 : ℝ), 10, 100] = some ⟨1, 0, 1, 1, 1, 3⟩ ∧
    (FitResult.mk 1 0 1 1 1 3).m = 1 ∧ (FitResult.mk 1 0 1 1 1 3).r2 = 1 := by
  have h := exact_powerlaw_fit [(1 : ℝ), 10, 100] [(1 : ℝ), 10, 100] 1 1
    (by norm_num) (by norm_num) (by norm_num) (by norm_num)
    (by
      intro p hp
      simp only [List.zip_cons_cons, List.zip_nil_right, List.mem_cons,
        List.not_mem_nil, or_false] at hp
      rcases hp with rfl | rfl | rfl <;> norm_num [Real.rpow_one])
    (by norm_num)
    ⟨1, by norm_num, 10, by norm_num, by norm_num⟩
  obtain ⟨r, hr, hm, hr2⟩ := h
  rw [ols_eval_1] at hr
  injection hr with hr
  rw [← hr] at hm hr2
  exact ⟨ols_eval_1, hm, hr2⟩

lemma retained_scale (xs ys : List ℝ) (c : ℝ) (hc : 0 < c) :
    retained (xs.map (fun x => x * c)) ys
      = (retained xs ys).map (fun p => (p.1 * c, p.2)) := by
  rw [retained, retained, zip_map_left_pair, List.filter_map]
  congr 1
  apply List.filter_congr
  intro p _
  obtain ⟨u, v⟩ := p
  apply decide_eq_decide.mpr
  dsimp only
  constructor
  · rintro ⟨h1, h2⟩
    refine ⟨?_, h2⟩
    by_contra hle
    push_neg at hle
    nlinarith
  · rintro ⟨h1, h2⟩
    exact ⟨mul_pos h1 hc, h2⟩

lemma lxOf_scale (xs ys : List ℝ) (c : ℝ) (hc : 0 < c) :
    lxOf (xs.map (fun x => x * c)) ys
      = (lxOf xs ys).map (fun t => t + Real.logb 10 c) := by
  rw [lxOf, lxOf, retained_scale xs ys c hc, List.map_map, List.map_map]
  apply List.map_congr_left
  intro p hp
  have h1 : 0 < p.1 := (retained_mem_pos hp).1
  simp only [Function.comp]
  rw [Real.logb_mul (ne_of_gt h1) (ne_of_gt hc)]

lemma lyOf_scale (xs ys : List ℝ) (c : ℝ) (hc : 0 < c) :
    lyOf (xs.map (fun x => x * c)) ys = lyOf xs ys := by
  rw [lyOf, lyOf, retained_scale xs ys c hc, List.map_map]
  apply List.map_congr_left
  intro p _
  simp [Function.comp]

/-- Scaling every x by a positive constant (what the multiplicative jitter
does) leaves the fitter's availability, slope, CI, R² and point count
unchanged, and shifts the intercept by slope·log10(c). -/
lemma ols_log10_scale (xs ys : List ℝ) (c : ℝ) (hc : 0 < c) :
    (ols_log10 (xs.map (fun x => x * c)) ys = none ↔ ols_log10 xs ys = none) ∧
    (∀ r r', ols_log10 (xs.map (fun x => x * c)) ys = some r →
      ols_log10 xs ys = some r' →
      r.m = r'.m ∧ r.lo = r'.lo ∧ r.hi = r'.hi ∧ r.r2 = r'.r2 ∧ r.n = r'.n ∧
      r.b = r'.b - r'.m * Real.logb 10 c) := by
  have hretlen : (retained (xs.map (fun x => x * c)) ys).length
      = (retained xs ys).length := by
    rw [retained_scale xs ys c hc, List.length_map]
  by_cases h3 : (retained xs ys).length < 3
  · have h1 : ols_log10 (xs.map (fun x => x * c)) ys = none := by
      rw [ols_log10, if_pos (by rw [hretlen]; exact h3)]
    have h2 : ols_log10 xs ys = none := by
      rw [ols_log10, if_pos h3]
    refine ⟨by rw [h1, h2], ?_⟩
    intro r r' hr _
    rw [h1] at hr
    cases hr
  · have hlxlen : (lxOf xs ys).length = (retained xs ys).length := by
      rw [lxOf, List.length_map]
    have hlxne : lxOf xs ys ≠ [] := by
      intro hnil
      rw [hnil] at hlxlen
      simp only [List.length_nil] at hlxlen
      omega
    have hlx := lxOf_scale xs ys c hc
    have hly := lyOf_scale xs ys c hc
    have hsxxeq : sxxL (lxOf (xs.map (fun x => x * c)) ys) = sxxL (lxOf xs ys) := by
      rw [hlx, sxxL_map_add_const _ hlxne]
    by_cases hs : sxxL (lxOf xs ys) = 0
    · have h1 : ols_log10 (xs.map (fun x => x * c)) ys = none := by
        rw [ols_log10, if_neg (by rw [hretlen]; exact h3),
          if_pos (by rw [hsxxeq]; exact hs)]
      have h2 : ols_log10 xs ys = none := by
        rw [ols_log10, if_neg h3, if_pos hs]
      refine ⟨by rw [h1, h2], ?_⟩
      intro r r' hr _
      rw [h1] at hr
      cases hr
    · have h1 := ols_log10_eq_some (xs.map (fun x => x * c)) ys
        (by rw [hretlen]; exact h3) (by rw [hsxxeq]; exact hs)
      have h2 := ols_log10_eq_some xs ys h3 hs
      rw [hlx, hly, slopeL_map_add_const _ _ hlxne, interceptL_map_add_const _ _ hlxne,
        seL_map_add_const _ _ hlxne, r2L_map_add_const _ _ hlxne, List.length_map] at h1
      refine ⟨by rw [h1, h2]; simp, ?_⟩
      intro r r' hr hr'
      rw [h1] at hr
      rw [h2] at hr'
      injection hr with hr
      injection hr' with hr'
      rw [← hr, ← hr']
      exact ⟨rfl, rfl, rfl, rfl, rfl, rfl⟩

/-- Claim C1 (amended): a nonzero jitter percentage scales the x-data that is
passed to the fitter (it does not only move the rendered markers); because
the scaling is a constant positive factor, the fitted slope, CI bounds, R²
and point count still agree with the jitter-disabled fit, but the intercept
shifts by slope·log10(1 + pct/100). -/
theorem jitter_scale_invariance (xs ys : List ℝ) (jpct : ℝ)
    (hc : 0 < 1 + jpct / 100) :
    (jpct ≠ 0 → jitteredXs "LF-thrash" xs jpct
      = xs.map (fun x => x * (1 + jpct / 100))) ∧
    (ols_log10 (jitteredXs "LF-thrash" xs jpct) ys = none ↔
      ols_log10 xs ys = none) ∧
    (∀ r r', ols_log10 (jitteredXs "LF-thrash" xs jpct) ys = some r →
      ols_log10 xs ys = some r' →
      r.m = r'.m ∧ r.lo = r'.lo ∧ r.hi = r'.hi ∧ r.r2 = r'.r2 ∧ r.n = r'.n ∧
      r.b = r'.b - r'.m * Real.logb 10 (1 + jpct / 100)) := by
  by_cases hj0 : jpct = 0
  · subst hj0
    have hid : jitteredXs "LF-thrash" xs 0 = xs := by
      rw [jitteredXs, if_neg]
      simp
    refine ⟨fun h => absurd rfl h, by rw [hid], ?_⟩
    intro r r' h1 h2
    rw [hid, h2] at h1
    injection h1 with h1
    rw [h1]
    norm_num
  · have hj : jitteredXs "LF-thrash" xs jpct
        = xs.map (fun x => x * (1 + jpct / 100)) := by
      rw [jitteredXs, if_pos ⟨by decide, hj0⟩]
    obtain ⟨hnone, hsome⟩ := ols_log10_scale xs ys (1 + jpct / 100) hc
    exact ⟨fun _ => hj, by rw [hj]; exact hnone, by rw [hj]; exact hsome⟩

/-- The 900% jitter applied to the thrash series x = [1, 10, 100] scales
every x by 10. -/
lemma jittered_eval_900 :
    jitteredXs "LF-thrash" [(1 : ℝ), 10, 100] 900 = [(10 : ℝ), 100, 1000] := by
  rw [jitteredXs, if_pos ⟨by decide, by norm_num⟩]
  norm_num

/-- Counterexample to C1 as stated: with a 900% jitter on the thrash series
x = [1, 10, 100], y = [1, 10, 100], the data handed to the fitter is the
jittered [10, 100, 1000], and the resulting fit differs from the
jitter-disabled fit (the intercept is −1 instead of 0). -/
theorem jitter_changes_fit_cex :
    jitteredXs "LF-thrash" [(1 : ℝ), 10, 100] 900 = [(10 : ℝ), 100, 1000] ∧
    jitteredXs "LF-thrash" [(1 : ℝ), 10, 100] 0 = [(1 : ℝ), 10, 100] ∧
    ols_log10 (jitteredXs "LF-thrash" [(1 : ℝ), 10, 100] 900) [(1 : ℝ), 10, 100]
      ≠ ols_log10 (jitteredXs "LF-thrash" [(1 : ℝ), 10, 100] 0) [(1 : ℝ), 10, 100] := by
  have hid : jitteredXs "LF-thrash" [(1 : ℝ), 10, 100] 0 = [(1 : ℝ), 10, 100] := by
    rw [jitteredXs, if_neg]
    simp
  refine ⟨jittered_eval_900, hid, ?_⟩
  rw [jittered_eval_900, hid, ols_eval_2, ols_eval_1]
  intro h
  injection h with h
  have hb := congrArg FitResult.b h
  norm_num at hb

/-- Witness for the amended C1 at the thrash series x = [1, 10, 100],
y = [1, 10, 100] with a 900% jitter: slope, CI, R² and n agree, and the
intercepts differ by slope·log10(10). -/
theorem jitter_scale_invariance_w :
    (FitResult.mk 1 (-1) 1 1 1 3).m = (FitResult.mk 1 0 1 1 1 3).m ∧
    (FitResult.mk 1 (-1) 1 1 1 3).lo = (FitResult.mk 1 0 1 1 1 3).lo ∧
    (FitResult.mk 1 (-1) 1 1 1 3).hi = (FitResult.mk 1 0 1 1 1 3).hi ∧
    (FitResult.mk 1 (-1) 1 1 1 3).r2 = (FitResult.mk 1 0 1 1 1 3).r2 ∧
    (FitResult.mk 1 (-1) 1 1 1 3).n = (FitResult.mk 1 0 1 1 1 3).n ∧
    (FitResult.mk 1 (-1) 1 1 1 3).b = (FitResult.mk 1 0 1 1 1 3).b -
      (FitResult.mk 1 0 1 1 1 3).m * Real.logb 10 (1 + 900 / 100) :=
  (jitter_scale_invariance [(1 : ℝ), 10, 100] [(1 : ℝ), 10, 100] 900
      (by norm_num)).2.2 ⟨1, -1, 1, 1, 1, 3⟩ ⟨1, 0, 1, 1, 1, 3⟩
    (by rw [jittered_eval_900]; exact ols_eval_2) ols_eval_1

lemma nearly_identical_of_forall₂ (a b : List ℚ)
    (h : List.Forall₂ (fun u v => |u - v| ≤ (1e-12 : ℚ)) a b) :
    nearly_identical a b = true := by
  obtain ⟨hlen, hall⟩ := List.forall₂_iff_zip.mp h
  rw [nearly_identical, Bool.and_eq_true]
  refine ⟨decide_eq_true hlen, ?_⟩
  rw [List.all_eq_true]
  intro p hp
  obtain ⟨u, v⟩ := p
  exact decide_eq_true (hall hp)

/-- Claim C7 (amended): every pair of loaded series with nonempty
x-sequences whose x- and y-sequences are elementwise equal within absolute
tolerance 1e-12 is reported as numerically identical; but the detector skips
any pair in which an x-sequence is empty, so a pair of empty series is never
reported. -/
theorem identical_series_reported (xa ya xb yb : List ℚ)
    (hxa : xa ≠ []) (hxb : xb ≠ [])
    (hx : List.Forall₂ (fun u v => |u - v| ≤ (1e-12 : ℚ)) xa xb)
    (hy : List.Forall₂ (fun u v => |u - v| ≤ (1e-12 : ℚ)) ya yb) :
    reportsIdenticalPair xa ya xb yb = true := by
  rw [reportsIdenticalPair, nearly_identical_of_forall₂ xa xb hx,
    nearly_identical_of_forall₂ ya yb hy]
  simp [List.isEmpty_iff, hxa, hxb]

/-- Counterexample to C7 as stated: a pair of empty series is elementwise
equal within tolerance (vacuously, equal length 0), yet the detector's pair
condition requires nonempty x-lists and does not report it. -/
theorem empty_pair_not_reported_cex :
    List.Forall₂ (fun u v => |u - v| ≤ (1e-12 : ℚ)) ([] : List ℚ) ([] : List ℚ) ∧
    nearly_identical ([] : List ℚ) ([] : List ℚ) = true ∧
    reportsIdenticalPair [] [] [] [] = false :=
  ⟨List.Forall₂.nil, by decide, by decide⟩

/-- Witness for the amended C7: the two one-point series x = [1], y = [2]
are reported as numerically identical. -/
theorem identical_series_reported_w :
    reportsIdenticalPair [(1 : ℚ)] [(2 : ℚ)] [(1 : ℚ)] [(2 : ℚ)] = true :=
  identical_series_reported [(1 : ℚ)] [(2 : ℚ)] [(1 : ℚ)] [(2 : ℚ)]
    (by decide) (by decide)
    (List.Forall₂.cons (by norm_num) List.Forall₂.nil)
    (List.Forall₂.cons (by norm_num) List.Forall₂.nil)

lemma jitteredXs_nil (label : String) (jpct : ℝ) : jitteredXs label [] jpct = [] := by
  rw [jitteredXs]
  split <;> simp

/-- Claim C5 (amended): a record with neither a "report"/"series" key nor a
"points" key loads as the empty series, and the composer then draws no line,
computes no fit, and appends no caption line at all for it — in particular
the caption does not contain "label: fit n/a" (that line only appears for
nonempty series whose fit is unavailable). -/
theorem empty_series_step (obj : JsonVal) (label : String) (jpct : ℝ)
    (hr : lookupKey obj "report" = none) (hs : lookupKey obj "series" = none)
    (hp : lookupKey obj "points" = none) :
    load_series obj = some ⟨[], [], [], none⟩ ∧
    composeStep label [] [] jpct = { drawn := false, fit := none, caption := [] } := by
  constructor
  · have hd : isDictSchema obj = false := by
      rw [isDictSchema, itemsOf, tryGetNN, tryGetNN, hr, hs]
      rfl
    rw [load_series, if_neg (by rw [hd]; exact Bool.false_ne_true), hp]
  · rw [composeStep, if_pos (jitteredXs_nil label jpct)]

/-- Counterexample to C5 as stated: for the unrecognized-schema record `{}`
(empty series), the composer emits no caption line at all, so the caption
does not state "label: fit n/a". -/
theorem empty_series_caption_cex :
    load_series (JsonVal.obj []) = some ⟨[], [], [], none⟩ ∧
    (composeStep "LF-default" [] [] 0).caption = [] ∧
    ¬ (CaptionEntry.fitNA "LF-default") ∈ (composeStep "LF-default" [] [] 0).caption := by
  have hc : composeStep "LF-default" [] [] 0
      = { drawn := false, fit := none, caption := [] } := by
    rw [composeStep, if_pos (jitteredXs_nil _ _)]
  refine ⟨by decide, by rw [hc], by rw [hc]; exact List.not_mem_nil _⟩

/-- Witness for the amended C5 at the record with a single unrelated key. -/
theorem empty_series_step_w :
    load_series (JsonVal.obj [("foo", JsonVal.num 1)]) = some ⟨[], [], [], none⟩ ∧
    composeStep "LF-scramble" [] [] 0
      = { drawn := false, fit := none, caption := [] } :=
  empty_series_step (JsonVal.obj [("foo", JsonVal.num 1)]) "LF-scramble" 0
    rfl rfl rfl

/-- Claim C4 (amended): in the dict schema, a point whose "dt" or
"tail_median" is missing or non-numeric is skipped non-fatally; in the
points schema only wrong-shape entries (not a list, or fewer than two
elements) are skipped, while a non-numeric coordinate in a well-shaped
entry is fatal to the load. -/
theorem point_skip_rules :
    (∀ (it : JsonVal) (rest : List JsonVal),
      ((lookupKey it "dt").bind pyFloat = none ∨
        (lookupKey it "tail_median").bind pyFloat = none) →
      parseDictItems (it :: rest) = parseDictItems rest) ∧
    (∀ (pair : JsonVal) (rest : List JsonVal),
      (∀ a b l, pair ≠ JsonVal.arr (a :: b :: l)) →
      parsePointPairs (pair :: rest) = parsePointPairs rest) ∧
    (∀ (a b : JsonVal) (l rest : List JsonVal),
      (pyFloat a = none ∨ pyFloat b = none) →
      parsePointPairs (JsonVal.arr (a :: b :: l) :: rest) = none) := by
  refine ⟨?_, ?_, ?_⟩
  · intro it rest h
    rcases h with h | h
    · simp [parseDictItems, h]
    · cases hdt : (lookupKey it "dt").bind pyFloat with
      | none => simp [parseDictItems, hdt]
      | some x => simp [parseDictItems, hdt, h]
  · intro pair rest h
    cases pair with
    | null =>
      rw [parsePointPairs]
      intro a b tl hcon
      simp at hcon
    | bool b =>
      rw [parsePointPairs]
      intro a b tl hcon
      simp at hcon
    | num q =>
      rw [parsePointPairs]
      intro a b tl hcon
      simp at hcon
    | obj kvs =>
      rw [parsePointPairs]
      intro a b tl hcon
      simp at hcon
    | arr l =>
      cases l with
      | nil =>
        rw [parsePointPairs]
        intro a b tl hcon
        simp at hcon
      | cons a l2 =>
        cases l2 with
        | nil =>
          rw [parsePointPairs]
          intro a b tl hcon
          simp at hcon
        | cons b tl => exact absurd rfl (h a b tl)
  · intro a b l rest h
    rcases h with h | h
    · simp [parsePointPairs, h]
    · cases ha : pyFloat a with
      | none => simp [parsePointPairs, ha]
      | some x => simp [parsePointPairs, ha, h]

/-- Counterexample to C4 as stated: in the points schema, the well-shaped
entry [null, 2] has a non-numeric first coordinate; `float(None)` raises and
the whole load fails instead of the point being skipped. -/
theorem points_nonnumeric_fatal_cex :
    load_series (JsonVal.obj [("points", JsonVal.arr
      [JsonVal.arr [JsonVal.null, JsonVal.num 2],
       JsonVal.arr [JsonVal.num 1, JsonVal.num 2]])]) = none := by
  decide

/-- Witness for the amended C4: an item with no "dt" key is skipped in the
dict schema; a bare number is skipped in the points schema; the well-shaped
pairs [null, 2] and [1, null] are both fatal (either coordinate
non-numeric). -/
theorem point_skip_rules_w :
    parseDictItems [JsonVal.obj [],
        JsonVal.obj [("dt", JsonVal.num 1), ("tail_median", JsonVal.num 2)]]
      = parseDictItems [JsonVal.obj [("dt", JsonVal.num 1), ("tail_median", JsonVal.num 2)]] ∧
    parsePointPairs [JsonVal.num 3] = parsePointPairs [] ∧
    parsePointPairs [JsonVal.arr [JsonVal.null, JsonVal.num 2]] = none ∧
    parsePointPairs [JsonVal.arr [JsonVal.num 1, JsonVal.null]] = none :=
  ⟨point_skip_rules.1 _ _ (Or.inl rfl),
   point_skip_rules.2.1 _ _ (fun _ _ _ h => nomatch h),
   point_skip_rules.2.2 _ _ [] [] (Or.inl rfl),
   point_skip_rules.2.2 _ _ [] [] (Or.inr rfl)⟩

lemma insertByX_length (p : ℚ × ℚ × ℤ) (l : List (ℚ × ℚ × ℤ)) :
    (insertByX p l).length = l.length + 1 := by
  induction l with
  | nil => rfl
  | cons q rest ih =>
    rw [insertByX]
    split <;> simp [ih]

lemma sortByX_length (l : List (ℚ × ℚ × ℤ)) : (sortByX l).length = l.length := by
  induction l with
  | nil => rfl
  | cons p rest ih => rw [sortByX, insertByX_length, ih, List.length_cons]

lemma parseDictItems_lengths :
    ∀ (l : List JsonVal) (xs : List ℚ) (ys : List ℚ) (rs : List ℤ),
      parseDictItems l = some (xs, ys, rs) →
      ys.length = xs.length ∧ rs.length = xs.length := by
  intro l
  induction l with
  | nil =>
    intro xs ys rs h
    simp only [parseDictItems, Option.some.injEq, Prod.mk.injEq] at h
    obtain ⟨h1, h2, h3⟩ := h
    rw [← h1, ← h2, ← h3]
    exact ⟨rfl, rfl⟩
  | cons it rest ih =>
    intro xs ys rs h
    cases hdt : (lookupKey it "dt").bind pyFloat with
    | none =>
      rw [parseDictItems, hdt] at h
      dsimp only at h
      exact ih xs ys rs h
    | some x =>
      cases hmt : (lookupKey it "tail_median").bind pyFloat with
      | none =>
        rw [parseDictItems, hdt, hmt] at h
        dsimp only at h
        exact ih xs ys rs h
      | some y =>
        rw [parseDictItems, hdt, hmt] at h
        dsimp only at h
        by_cases hpos : 0 < x ∧ 0 < y
        · rw [if_pos hpos] at h
          cases hri : pyInt ((lookupKey it "runs").getD (JsonVal.num 0)) with
          | none =>
            rw [hri] at h
            cases h
          | some r =>
            rw [hri] at h
            obtain ⟨t, ht, hmap⟩ := Option.map_eq_some'.mp h
            obtain ⟨xs0, ys0, rs0⟩ := t
            obtain ⟨h1, h2⟩ := ih xs0 ys0 rs0 ht
            simp only [Prod.mk.injEq] at hmap
            obtain ⟨hx, hy, hr⟩ := hmap
            rw [← hx, ← hy, ← hr]
            simp [h1, h2]
        · rw [if_neg hpos] at h
          exact ih xs ys rs h

/-- Claim C9 (amended): for the dict schema the declared count is the number
of retained points, absent when none are retained; for the points schema the
declared count is absent when no points are retained, and otherwise the
explicit "n" field when present, else the retained count. -/
theorem declared_count_rules :
    (∀ (obj : JsonVal) (s : LoadedSeries), isDictSchema obj = true →
      load_series obj = some s →
      s.nPts = if s.xs.isEmpty then none else some (s.xs.length : ℤ)) ∧
    (∀ (obj : JsonVal) (s : LoadedSeries) (pairs : List JsonVal)
      (xs ys : List ℚ), isDictSchema obj = false →
      lookupKey obj "points" = some (JsonVal.arr pairs) →
      parsePointPairs pairs = some (xs, ys) →
      load_series obj = some s →
      s.nPts = if xs.isEmpty then none
        else pyInt ((lookupKey obj "n").getD (JsonVal.num (xs.length : ℚ)))) := by
  constructor
  · intro obj s hd hload
    rw [load_series, if_pos hd] at hload
    cases hparse : parseDictItems (dictItems obj) with
    | none =>
      rw [hparse] at hload
      cases hload
    | some t =>
      obtain ⟨xs, ys, rs⟩ := t
      rw [hparse] at hload
      injection hload with hload
      obtain ⟨h1, h2⟩ := parseDictItems_lengths _ _ _ _ hparse
      have hzlen : ((sortByX (xs.zip (ys.zip rs))).map (fun t => t.1)).length
          = xs.length := by
        rw [List.length_map, sortByX_length, List.length_zip, List.length_zip]
        omega
      rw [← hload]
      dsimp only
      have hemp : ((sortByX (xs.zip (ys.zip rs))).map (fun t => t.1)).isEmpty
          = xs.isEmpty := by
        rw [Bool.eq_iff_iff, List.isEmpty_iff_length_eq_zero,
          List.isEmpty_iff_length_eq_zero, hzlen]
      rw [hemp, hzlen]
  · intro obj s pairs xs ys hd hpoints hparse hload
    rw [load_series, if_neg (by rw [hd]; exact Bool.false_ne_true), hpoints] at hload
    dsimp only at hload
    rw [hparse] at hload
    dsimp only at hload
    by_cases hxe : xs.isEmpty = true
    · rw [if_pos hxe] at hload
      injection hload with hload
      rw [← hload, if_pos hxe]
    · rw [if_neg hxe] at hload
      cases hn : pyInt ((lookupKey obj "n").getD (JsonVal.num (xs.length : ℚ))) with
      | none =>
        rw [hn] at hload
        cases hload
      | some n =>
        rw [hn] at hload
        injection hload with hload
        rw [← hload, if_neg hxe]

/-- Counterexample to C9 as stated: a points-schema record whose only entry
fails the positivity screen retains no points; although an explicit "n": 5
field is present, the loader declares no count (None), not 5. -/
theorem points_n_absent_cex :
    lookupKey (JsonVal.obj [("points", JsonVal.arr
        [JsonVal.arr [JsonVal.num (-1), JsonVal.num 2]]),
        ("n", JsonVal.num 5)]) "n" = some (JsonVal.num 5) ∧
    load_series (JsonVal.obj [("points", JsonVal.arr
        [JsonVal.arr [JsonVal.num (-1), JsonVal.num 2]]),
        ("n", JsonVal.num 5)]) = some ⟨[], [], [], none⟩ ∧
    (LoadedSeries.mk [] [] [] none).nPts ≠ some 5 :=
  ⟨rfl, by decide, by decide⟩

/-- Witness for the amended C9: a one-point dict-schema record declares
count 1; a one-point points-schema record with "n": 7 declares 7. -/
theorem declared_count_rules_w :
    (LoadedSeries.mk [1] [2] [0] (some 1)).nPts
      = (if (LoadedSeries.mk [1] [2] [0] (some 1)).xs.isEmpty then none
         else some ((LoadedSeries.mk [1] [2] [0] (some 1)).xs.length : ℤ)) ∧
    (LoadedSeries.mk [1] [2] [0] (some 7)).nPts
      = (if ([(1 : ℚ)] : List ℚ).isEmpty then none
         else pyInt ((lookupKey (JsonVal.obj
            [("points", JsonVal.arr [JsonVal.arr [JsonVal.num 1, JsonVal.num 2]]),
             ("n", JsonVal.num 7)]) "n").getD
           (JsonVal.num (([(1 : ℚ)] : List ℚ).length : ℚ)))) :=
  ⟨declared_count_rules.1
      (JsonVal.obj [("report", JsonVal.arr
        [JsonVal.obj [("dt", JsonVal.num 1), ("tail_median", JsonVal.num 2)]])])
      (LoadedSeries.mk [1] [2] [0] (some 1)) rfl (by decide),
   declared_count_rules.2
      (JsonVal.obj [("points", JsonVal.arr [JsonVal.arr [JsonVal.num 1, JsonVal.num 2]]),
        ("n", JsonVal.num 7)])
      (LoadedSeries.mk [1] [2] [0] (some 7))
      [JsonVal.arr [JsonVal.num 1, JsonVal.num 2]] [1] [2]
      rfl rfl (by decide) (by decide)⟩

lemma linspaceIdx_length (last num : ℕ) : (linspaceIdx last num).length = num := by
  rw [linspaceIdx, List.length_map, List.length_range]

lemma linspaceIdx_le (last num i : ℕ) (hi : i ∈ linspaceIdx last num) : i ≤ last := by
  rw [linspaceIdx] at hi
  obtain ⟨j, hj, rfl⟩ := List.mem_map.mp hi
  split
  · exact Nat.zero_le last
  · rename_i hn
    have hj' : j < num := List.mem_range.mp hj
    calc j * last / (num - 1)
        ≤ (num - 1) * last / (num - 1) :=
          Nat.div_le_div_right (Nat.mul_le_mul_right _ (by omega))
      _ = last := Nat.mul_div_cancel_left last (by omega)

lemma geomspace_length (a b : ℝ) (num : ℕ) : (geomspace a b num).length = num := by
  rw [geomspace, List.length_map, List.length_range]

/-- Claim C8 (amended): the tick selector returns the empty list when ymin
or ymax is non-positive (float non-finiteness has no counterpart over exact
reals); it returns at most max_labels values; and whenever some candidate
mantissa times 10^floor(log10 ymin) lies within [ymin, ymax], every returned
value lies within the 1e-12·base-tolerant interval
[ymin − 1e-12·base, ymax + 1e-12·base] — the filter admits candidates up to
1e-12 outside the exact mantissa range, so a returned tick can fall slightly
below ymin or above ymax. -/
theorem ticks_props (ymin ymax : ℝ) (n : ℕ) :
    (ymin ≤ 0 ∨ ymax ≤ 0 → nice_sparse_log_ticks ymin ymax n = []) ∧
    (nice_sparse_log_ticks ymin ymax n).length ≤ n ∧
    (0 < ymin → 0 < ymax →
      (∃ c ∈ candMantissas,
        ymin ≤ c * (10 : ℝ) ^ (⌊Real.logb 10 ymin⌋ : ℤ) ∧
        c * (10 : ℝ) ^ (⌊Real.logb 10 ymin⌋ : ℤ) ≤ ymax) →
      ∀ v ∈ nice_sparse_log_ticks ymin ymax n,
        ymin - 1e-12 * (10 : ℝ) ^ (⌊Real.logb 10 ymin⌋ : ℤ) ≤ v ∧
        v ≤ ymax + 1e-12 * (10 : ℝ) ^ (⌊Real.logb 10 ymin⌋ : ℤ)) := by
  refine ⟨fun h => by rw [nice_sparse_log_ticks, if_pos h], ?_, ?_⟩
  · by_cases h : ymin ≤ 0 ∨ ymax ≤ 0
    · rw [nice_sparse_log_ticks, if_pos h]
      exact Nat.zero_le n
    · rw [nice_sparse_log_ticks, if_neg h]
      dsimp only
      rw [List.length_map, linspaceIdx_length]
      exact min_le_left n _
  · intro hy1 hy2 hcand v hv
    have hno : ¬ (ymin ≤ 0 ∨ ymax ≤ 0) := by
      push_neg
      exact ⟨hy1, hy2⟩
    obtain ⟨c, hcmem, hclo, hchi⟩ := hcand
    rw [nice_sparse_log_ticks, if_neg hno] at hv
    dsimp only at hv
    have hbpos : (0 : ℝ) < (10 : ℝ) ^ (⌊Real.logb 10 ymin⌋ : ℤ) :=
      zpow_pos (by norm_num) _
    have hclo' : ymin / (10 : ℝ) ^ (⌊Real.logb 10 ymin⌋ : ℤ) ≤ c :=
      (div_le_iff₀ hbpos).mpr hclo
    have hchi' : c ≤ ymax / (10 : ℝ) ^ (⌊Real.logb 10 ymin⌋ : ℤ) :=
      (le_div_iff₀ hbpos).mpr hchi
    have hcf : c ∈ candMantissas.filter (fun c =>
        decide (ymin / (10 : ℝ) ^ (⌊Real.logb 10 ymin⌋ : ℤ) - 1e-12 ≤ c ∧
          c ≤ ymax / (10 : ℝ) ^ (⌊Real.logb 10 ymin⌋ : ℤ) + 1e-12)) := by
      refine List.mem_filter.mpr ⟨hcmem, ?_⟩
      rw [decide_eq_true_eq]
      constructor
      · linarith [hclo']
      · linarith [hchi']
    have hne : candMantissas.filter (fun c =>
        decide (ymin / (10 : ℝ) ^ (⌊Real.logb 10 ymin⌋ : ℤ) - 1e-12 ≤ c ∧
          c ≤ ymax / (10 : ℝ) ^ (⌊Real.logb 10 ymin⌋ : ℤ) + 1e-12)) ≠ [] :=
      List.ne_nil_of_mem hcf
    rw [if_neg hne] at hv
    obtain ⟨i, hi_mem, rfl⟩ := List.mem_map.mp hv
    have hi_le := linspaceIdx_le _ _ _ hi_mem
    have hlpos : 0 < (candMantissas.filter (fun c =>
        decide (ymin / (10 : ℝ) ^ (⌊Real.logb 10 ymin⌋ : ℤ) - 1e-12 ≤ c ∧
          c ≤ ymax / (10 : ℝ) ^ (⌊Real.logb 10 ymin⌋ : ℤ) + 1e-12))).length :=
      List.length_pos.mpr hne
    have hi_lt : i < (candMantissas.filter (fun c =>
        decide (ymin / (10 : ℝ) ^ (⌊Real.logb 10 ymin⌋ : ℤ) - 1e-12 ≤ c ∧
          c ≤ ymax / (10 : ℝ) ^ (⌊Real.logb 10 ymin⌋ : ℤ) + 1e-12))).length := by
      omega
    have hgd : (candMantissas.filter (fun c =>
        decide (ymin / (10 : ℝ) ^ (⌊Real.logb 10 ymin⌋ : ℤ) - 1e-12 ≤ c ∧
          c ≤ ymax / (10 : ℝ) ^ (⌊Real.logb 10 ymin⌋ : ℤ) + 1e-12))).getD i 0 ∈
        candMantissas.filter (fun c =>
        decide (ymin / (10 : ℝ) ^ (⌊Real.logb 10 ymin⌋ : ℤ) - 1e-12 ≤ c ∧
          c ≤ ymax / (10 : ℝ) ^ (⌊Real.logb 10 ymin⌋ : ℤ) + 1e-12)) := by
      rw [List.getD_eq_getElem _ _ hi_lt]
      exact List.getElem_mem hi_lt
    obtain ⟨-, hpred⟩ := List.mem_filter.mp hgd
    rw [decide_eq_true_eq] at hpred
    obtain ⟨h1, h2⟩ := hpred
    constructor
    · have := mul_le_mul_of_nonneg_right h1 hbpos.le
      rw [sub_mul, div_mul_cancel₀ _ (ne_of_gt hbpos)] at this
      linarith
    · have := mul_le_mul_of_nonneg_right h2 hbpos.le
      rw [add_mul, div_mul_cancel₀ _ (ne_of_gt hbpos)] at this
      linarith

/-- Witness for the amended C8: a non-positive lower bound yields the empty
tick list. -/
theorem ticks_props_w : nice_sparse_log_ticks (-1) 1 4 = [] :=
  (ticks_props (-1) 1 4).1 (Or.inl (by norm_num))

lemma floor_logb_cex : ⌊Real.logb 10 (1.2 + 1e-13 : ℝ)⌋ = 0 := by
  have h1 : (0 : ℝ) ≤ Real.logb 10 (1.2 + 1e-13 : ℝ) :=
    Real.logb_nonneg (by norm_num) (by norm_num)
  have h2 : Real.logb 10 (1.2 + 1e-13 : ℝ) < 1 := by
    have h3 := Real.logb_lt_logb (b := 10) (by norm_num)
      (show (0 : ℝ) < 1.2 + 1e-13 by norm_num)
      (show (1.2 + 1e-13 : ℝ) < 10 by norm_num)
    rwa [logb_ten_eval] at h3
  exact Int.floor_eq_zero_iff.mpr ⟨h1, h2⟩

lemma ticks_eval_cex :
    nice_sparse_log_ticks (1.2 + 1e-13 : ℝ) 2 4 = [1.2, 1.4, 1.6, 2.0] := by
  have hfilter : candMantissas.filter (fun c =>
      decide ((1.2 + 1e-13 : ℝ) / (10 : ℝ) ^ ((0 : ℤ)) - 1e-12 ≤ c ∧
        c ≤ (2 : ℝ) / (10 : ℝ) ^ ((0 : ℤ)) + 1e-12))
      = [1.2, 1.4, 1.6, 1.8, 2.0] := by
    norm_num [candMantissas, List.filter_cons, List.filter_nil, decide_eq_true_eq]
  have hidx : linspaceIdx 4 4 = [0, 1, 2, 4] := by decide
  rw [nice_sparse_log_ticks, if_neg (by push_neg; constructor <;> norm_num)]
  dsimp only
  rw [floor_logb_cex, hfilter, if_neg (by simp)]
  norm_num [hidx, List.getD]

/-- Counterexample to C8 as stated: with ymin = 1.2 + 1e-13, ymax = 2,
the candidate mantissa 1.4 (times 10^floor(log10 ymin) = 1) lies within
[ymin, ymax], yet the selector also returns the tick 1.2, which lies
strictly below ymin — the candidate filter is tolerant by 1e-12. -/
theorem ticks_tolerance_cex :
    ((1.4 : ℝ) ∈ candMantissas ∧
      (1.2 + 1e-13 : ℝ) ≤ 1.4 * (10 : ℝ) ^ (⌊Real.logb 10 (1.2 + 1e-13 : ℝ)⌋ : ℤ) ∧
      (1.4 : ℝ) * (10 : ℝ) ^ (⌊Real.logb 10 (1.2 + 1e-13 : ℝ)⌋ : ℤ) ≤ 2) ∧
    (1.2 : ℝ) ∈ nice_sparse_log_ticks (1.2 + 1e-13) 2 4 ∧
    (1.2 : ℝ) < 1.2 + 1e-13 := by
  refine ⟨⟨?_, ?_, ?_⟩, ?_, by norm_num⟩
  · norm_num [candMantissas]
  · rw [floor_logb_cex]
    norm_num
  · rw [floor_logb_cex]
    norm_num
  · rw [ticks_eval_cex]
    norm_num

end NegDrift
